import Mathlib

/-!
Shallow embedding of the client-record viewer (`src/App.js`) and proofs
about its Query Engine (search/filter recomputation), Campaign Builder
(`extractEmails`, `extractClientNamesFromPrompt`, recipient narrowing in
`generateEmailCampaign`) and the `fetchClients` error path.

JavaScript values appearing in record fields are modelled by `FieldValue`
(text, number, boolean, null, multi-select list of text).  `String(v)`
is modelled by `renderValue`, JS truthiness by `truthy`, and
`toLowerCase`/`includes` by `jsLower`/`strIncludes` (character-wise
lowering and substring search on the character lists).
-/

/-- A JavaScript field value as it occurs in an Airtable record:
text, number, boolean, null, or a multi-select list of texts. -/
inductive FieldValue where
  | str (s : String)
  | num (n : Int)
  | bool (b : Bool)
  | null
  | list (xs : List String)
deriving DecidableEq

/-- JS truthiness of a field value (`0`, `false`, `""`, `null` are falsy;
arrays are always truthy). -/
def truthy : FieldValue → Bool
  | .str s => s != ""
  | .num n => n != 0
  | .bool b => b
  | .null => false
  | .list _ => true

/-- JS `String(v)`: identity on text, decimal rendering of numbers,
`"true"`/`"false"` for booleans, `"null"` for null, comma-join for arrays. -/
def renderValue : FieldValue → String
  | .str s => s
  | .num n => toString n
  | .bool b => if b then "true" else "false"
  | .null => "null"
  | .list xs => String.intercalate "," xs

/-- Character-wise lower-casing, modelling JS `toLowerCase` on the
ASCII strings this application handles. -/
def jsLower (s : String) : String := ⟨s.data.map Char.toLower⟩

/-- Does `pat` match the front of `l`? (helper for substring search). -/
def leadMatch : List Char → List Char → Bool
  | [], _ => true
  | _ :: _, [] => false
  | a :: as, b :: bs => a == b && leadMatch as bs

/-- Does `pat` occur as a contiguous run inside `l`? -/
def subSeg (pat : List Char) : List Char → Bool
  | [] => pat.isEmpty
  | c :: rest => leadMatch pat (c :: rest) || subSeg pat rest

/-- JS `hay.includes(needle)`: contiguous substring test. -/
def strIncludes (hay needle : String) : Bool := subSeg needle.data hay.data

/-- A fetched record: an opaque identifier plus a field-name/value mapping
(kept in insertion order, as JS object keys are). -/
structure Client where
  id : String
  fields : List (String × FieldValue)
deriving DecidableEq

/-- `fields[name]` lookup: the value of the first entry with that name. -/
def lookupField (fields : List (String × FieldValue)) (name : String) :
    Option FieldValue :=
  (fields.find? (fun kv => kv.1 == name)).map Prod.snd

/-- One record matches the global search term: some field value, rendered
as text, contains the term case-insensitively (`App.js` lines 398-404). -/
def searchMatches (searchTerm : String) (c : Client) : Bool :=
  c.fields.any (fun kv =>
    strIncludes (jsLower (renderValue kv.2)) (jsLower searchTerm))

/-- Rendering of a field value on the per-field filter path:
`String(fieldValue || '')` — a missing or falsy value renders as `""`. -/
def filterRender : Option FieldValue → String
  | none => ""
  | some v => if truthy v then renderValue v else ""

/-- One record matches one per-field filter entry (`App.js` lines 408-413). -/
def filterMatch (field value : String) (c : Client) : Bool :=
  strIncludes (jsLower (filterRender (lookupField c.fields field)))
    (jsLower value)

/-- One pass of the filter loop body (`App.js` lines 406-415): an entry with
an empty (falsy) value imposes no constraint. -/
def applyFilter (field value : String) (results : List Client) : List Client :=
  if value = "" then results
  else results.filter (fun c => filterMatch field value c)

/-- The search/filter recomputation of `App.js` lines 395-418: start from
the full record list, apply the global search if non-empty, then each
filter entry in order. -/
def computeVisible (clients : List Client) (searchTerm : String)
    (filters : List (String × String)) : List Client :=
  let results := if searchTerm = "" then clients
    else clients.filter (fun c => searchMatches searchTerm c)
  filters.foldl (fun acc kv => applyFilter kv.1 kv.2 acc) results

/-- The combined retention predicate: the search constraint (vacuous when
the term is empty) and every non-empty filter entry, conjoined. -/
def retains (searchTerm : String) (filters : List (String × String))
    (c : Client) : Bool :=
  (searchTerm == "" || searchMatches searchTerm c) &&
    filters.all (fun kv => kv.2 == "" || filterMatch kv.1 kv.2 c)

/-- The filter-path rendering that claim C1 ascribes to the code: plain
text rendering, with only a missing value treated as empty text. -/
def filterRenderClaim : Option FieldValue → String
  | none => ""
  | some v => renderValue v

/-- The retention predicate claim C1 states, differing from `retains`
only in the filter-path rendering of present falsy values. -/
def retainsClaim (searchTerm : String) (filters : List (String × String))
    (c : Client) : Bool :=
  (searchTerm == "" || searchMatches searchTerm c) &&
    filters.all (fun kv => kv.2 == "" ||
      strIncludes (jsLower (filterRenderClaim (lookupField c.fields kv.1)))
        (jsLower kv.2))

/-- Does a field name match the email heuristic of `extractEmails`
(`App.js` lines 106-110): lower-cased name contains `"email"` or equals
`"e-mail"`? -/
def emailKey (key : String) : Bool :=
  strIncludes (jsLower key) "email" || jsLower key == "e-mail"

/-- A campaign recipient as pushed by `extractEmails` (`App.js` lines
112-120): the email field value, the resolved display-name value, and the
source record's full field mapping. -/
structure Recipient where
  email : FieldValue
  name : FieldValue
  clientData : List (String × FieldValue)
deriving DecidableEq

/-- JS `v || d` applied to an optionally present field value. -/
def jsOr (v : Option FieldValue) (d : FieldValue) : FieldValue :=
  match v with
  | some x => if truthy x then x else d
  | none => d

/-- `fields.Name || fields.name || fields['First Name'] || 'Client'`
(`App.js` lines 114-118). -/
def recipientName (fields : List (String × FieldValue)) : FieldValue :=
  jsOr (lookupField fields "Name")
    (jsOr (lookupField fields "name")
      (jsOr (lookupField fields "First Name") (.str "Client")))

/-- `fields.Name || fields.name || fields['First Name'] || ''`
(`App.js` line 134, in `extractClientNamesFromPrompt`). -/
def promptName (fields : List (String × FieldValue)) : FieldValue :=
  jsOr (lookupField fields "Name")
    (jsOr (lookupField fields "name")
      (jsOr (lookupField fields "First Name") (.str "")))

/-- `extractEmails` (`App.js` lines 102-124): for each visible record,
find the first email-named field; when found and truthy, push a Recipient. -/
def extractEmails (filteredClients : List Client) : List Recipient :=
  filteredClients.filterMap (fun client =>
    match client.fields.find? (fun kv => emailKey kv.1) with
    | some kv =>
      if truthy kv.2 then
        some { email := kv.2
               name := recipientName client.fields
               clientData := client.fields }
      else none
    | none => none)

/-- The `forEach` loop of `extractClientNamesFromPrompt` (`App.js` lines
131-138), accumulating the names found in the prompt; `none` models the
TypeError thrown when `toLowerCase` is applied to a truthy non-text name. -/
def collectNames (lowerPrompt : String) :
    List Client → List String → Option (List String)
  | [], acc => some acc
  | client :: rest, acc =>
    if truthy (promptName client.fields) then
      match promptName client.fields with
      | .str s =>
        collectNames lowerPrompt rest
          (if strIncludes lowerPrompt (jsLower s) then acc ++ [s] else acc)
      | _ => none
    else collectNames lowerPrompt rest acc

/-- `extractClientNamesFromPrompt` (`App.js` lines 127-141). -/
def extractClientNamesFromPrompt (prompt : String)
    (filteredClients : List Client) : Option (List String) :=
  collectNames (jsLower prompt) filteredClients []

/-- Record-level mention test realised by the name-collection loop: the
resolved display name, when non-empty text, is collected exactly when it
occurs case-insensitively in the prompt. -/
def mentionOf (lowerPrompt : String) (client : Client) : Option String :=
  match promptName client.fields with
  | .str s =>
    if s != "" && strIncludes lowerPrompt (jsLower s) then some s else none
  | _ => none

/-- The recipient-narrowing filter of `generateEmailCampaign` (`App.js`
lines 158-162); `none` models the TypeError on a non-text display name. -/
def narrowRecipients (specifiedNames : List String) :
    List Recipient → Option (List Recipient)
  | [] => some []
  | r :: rest =>
    match r.name with
    | .str s =>
      match narrowRecipients specifiedNames rest with
      | some kept =>
        some (if specifiedNames.any (fun n => strIncludes (jsLower s) (jsLower n))
          then r :: kept else kept)
      | none => none
    | _ => none

/-- Boolean form of the narrowing predicate, for stating claim C7. -/
def recipKeep (specifiedNames : List String) (r : Recipient) : Bool :=
  match r.name with
  | .str s => specifiedNames.any (fun n => strIncludes (jsLower s) (jsLower n))
  | _ => false

/-- The recipient computation of `generateEmailCampaign` (`App.js` lines
152-162): candidate recipients from `extractEmails`, narrowed when the
prompt mentions visible client names. -/
def campaignRecipients (prompt : String) (filteredClients : List Client) :
    Option (List Recipient) :=
  match extractClientNamesFromPrompt prompt filteredClients with
  | none => none
  | some specifiedNames =>
    let recipients := extractEmails filteredClients
    if specifiedNames.isEmpty then some recipients
    else narrowRecipients specifiedNames recipients

/-- Outcome of the zero-recipient check in `generateEmailCampaign`. -/
inductive CampaignOutcome where
  | noRecipients
  | ok (recipients : List Recipient)
deriving DecidableEq

/-- The zero-recipient check of `generateEmailCampaign` (`App.js` lines
164-168): after narrowing, an empty recipient list raises the NoRecipients
error (thrown, then surfaced by the caller as a chat message). -/
def buildCampaignCheck (prompt : String) (filteredClients : List Client) :
    Option CampaignOutcome :=
  match campaignRecipients prompt filteredClients with
  | none => none
  | some recipients =>
    some (if recipients.isEmpty then .noRecipients else .ok recipients)

/-- A record contributes a recipient: its first email-named field exists
and holds a truthy value. -/
def hasEmailField (client : Client) : Bool :=
  match client.fields.find? (fun kv => emailKey kv.1) with
  | some kv => truthy kv.2
  | none => false

/-- The recipient a contributing record yields. -/
def recipientOf (client : Client) : Recipient :=
  { email := (client.fields.find? (fun kv => emailKey kv.1)).elim
      FieldValue.null Prod.snd
    name := recipientName client.fields
    clientData := client.fields }

/-- The three Airtable connection fields (`App.js` lines 25-29). -/
structure AirtableConfig where
  apiKey : String
  baseId : String
  tableName : String
deriving DecidableEq

/-- The view state the claims are about: connection configuration, record
store, derived visible subset, query inputs, and fetch status. -/
structure AppState where
  config : AirtableConfig
  clients : List Client
  filteredClients : List Client
  searchTerm : String
  filters : List (String × String)
  availableFilters : List String
  error : String
  loading : Bool
  showConfig : Bool
deriving DecidableEq

/-- The `fetchClients` guard (`App.js` line 60). -/
def configIncomplete (c : AirtableConfig) : Bool :=
  c.apiKey == "" || c.baseId == "" || c.tableName == ""

/-- Outcome of the record-source HTTP request. -/
inductive FetchResult where
  | success (records : List Client)
  | httpError (status : Nat) (statusText : String)
  | transportError (message : String)
deriving DecidableEq

def isFetchFailure : FetchResult → Bool
  | .success _ => false
  | .httpError _ _ => true
  | .transportError _ => true

/-- The error message `fetchClients` surfaces for each failing outcome
(`App.js` lines 81 and 95). -/
def fetchErrorMessage : FetchResult → String
  | .success _ => ""
  | .httpError status statusText =>
    "Error: " ++ toString status ++ " - " ++ statusText
  | .transportError message => message

/-- The synchronous recomputation effect (`App.js` lines 395-418): the
visible subset is replaced by `computeVisible` of the current inputs. -/
def settle (st : AppState) : AppState :=
  { st with filteredClients :=
      computeVisible st.clients st.searchTerm st.filters }

/-- `fetchClients` (`App.js` lines 59-99) as a state transition on the
request outcome; after a successful response the recomputation effect
settles the visible subset. -/
def fetchClientsStep (st : AppState) (res : FetchResult) : AppState :=
  if configIncomplete st.config then
    { st with error := "Please configure all Airtable settings" }
  else
    match res with
    | .success records =>
      settle { st with
        clients := records
        filteredClients := records
        availableFilters :=
          match records with
          | [] => st.availableFilters
          | r :: _ => r.fields.map Prod.fst
        error := ""
        loading := false
        showConfig := false }
    | .httpError status statusText =>
      { st with
        error := "Error: " ++ toString status ++ " - " ++ statusText
        loading := false }
    | .transportError message =>
      { st with
        error := message
        loading := false }

/-- `handleFilterChange` on the filter mapping (`App.js` lines 420-425):
JS object spread replaces an existing key in place or appends a new one. -/
def setFilterEntry (filters : List (String × String)) (field value : String) :
    List (String × String) :=
  if filters.any (fun kv => kv.1 == field) then
    filters.map (fun kv => if kv.1 == field then (field, value) else kv)
  else filters ++ [(field, value)]

/-- The user-facing operations that touch the record store or query
inputs; each is followed by the synchronous recomputation effect. -/
inductive AppOp where
  | setSearch (s : String)
  | setFilter (field value : String)
  | clearAll
  | fetch (res : FetchResult)

/-- One settled operation of the system. -/
def stepOp (st : AppState) : AppOp → AppState
  | .setSearch s => settle { st with searchTerm := s }
  | .setFilter field value =>
    settle { st with filters := setFilterEntry st.filters field value }
  | .clearAll => settle { st with filters := [], searchTerm := "" }
  | .fetch res => fetchClientsStep st res

/-- A record whose only field holds the number 0. -/
def zeroClient : Client := ⟨"rec0", [("Amount", .num 0)]⟩

/-- A record whose only field holds the boolean false. -/
def falseClient : Client := ⟨"recF", [("Active", .bool false)]⟩

def janeClient : Client :=
  ⟨"recJ", [("Name", .str "Jane"), ("Email", .str "jane@x.com")]⟩

def bobClient : Client :=
  ⟨"recB", [("Name", .str "Bob"), ("Email", .str "bob@x.com")]⟩

def noEmailClient : Client := ⟨"recN", [("Name", .str "Ann")]⟩

def acme1 : Client :=
  ⟨"rec1", [("Name", .str "Alice"), ("Company", .str "Acme Corp")]⟩

def acme4 : Client :=
  ⟨"rec4", [("Name", .str "Dan"), ("Notes", .str "met at ACME expo")]⟩

def acme7 : Client :=
  ⟨"rec7", [("Name", .str "Grace"), ("Company", .str "Acme West"),
    ("Notes", .str "priority")]⟩

/-- Ten fetched records of which exactly three mention "Acme" in a field. -/
def acmeClients : List Client :=
  [acme1,
   ⟨"rec2", [("Name", .str "Bob"), ("Company", .str "Globex")]⟩,
   ⟨"rec3", [("Name", .str "Carol"), ("Company", .str "Initech")]⟩,
   acme4,
   ⟨"rec5", [("Name", .str "Erin"), ("Company", .str "Umbrella")]⟩,
   ⟨"rec6", [("Name", .str "Frank"), ("Company", .str "Hooli")]⟩,
   acme7,
   ⟨"rec8", [("Name", .str "Heidi"), ("Company", .str "Soylent")]⟩,
   ⟨"rec9", [("Name", .str "Ivan"), ("Company", .str "Vehement")]⟩,
   ⟨"rec10", [("Name", .str "Judy"), ("Company", .str "Massive Dynamic")]⟩]

/-- A settled sample state used by the concrete witnesses. -/
def demoState : AppState :=
  { config := ⟨"key", "app1", "tbl1"⟩
    clients := [janeClient, bobClient]
    filteredClients := [janeClient]
    searchTerm := "jane"
    filters := []
    availableFilters := ["Name", "Email"]
    error := ""
    loading := false
    showConfig := false }

theorem applyFilter_eq_filter (field value : String) (l : List Client) :
    applyFilter field value l =
      l.filter (fun c => value == "" || filterMatch field value c) := by
  by_cases h : value = ""
  · simp [applyFilter, h]
  · simp only [applyFilter, if_neg h]
    apply List.filter_congr
    intro c _
    simp [h]

theorem foldl_applyFilter (filters : List (String × String))
    (p : Client → Bool) (l : List Client) :
    filters.foldl (fun acc kv => applyFilter kv.1 kv.2 acc) (l.filter p) =
      l.filter (fun c =>
        p c && filters.all (fun kv => kv.2 == "" || filterMatch kv.1 kv.2 c)) := by
  induction filters generalizing p with
  | nil => simp
  | cons kv rest ih =>
    rw [List.foldl_cons, applyFilter_eq_filter, List.filter_filter, ih]
    apply List.filter_congr
    intro c _
    simp only [List.all_cons]
    cases hp : p c <;>
      cases hq : (kv.2 == "" || filterMatch kv.1 kv.2 c) <;> simp [hp, hq]

theorem searchStage_eq_filter (clients : List Client) (searchTerm : String) :
    (if searchTerm = "" then clients
      else clients.filter (fun c => searchMatches searchTerm c)) =
    clients.filter (fun c => searchTerm == "" || searchMatches searchTerm c) := by
  by_cases h : searchTerm = ""
  · simp [h]
  · simp only [if_neg h]
    apply List.filter_congr
    intro c _
    simp [h]

theorem computeVisible_eq_filter (clients : List Client) (searchTerm : String)
    (filters : List (String × String)) :
    computeVisible clients searchTerm filters =
      clients.filter (fun c => retains searchTerm filters c) := by
  unfold computeVisible
  rw [searchStage_eq_filter, foldl_applyFilter]
  rfl

theorem computeVisible_subset (clients : List Client) (s : String)
    (filters : List (String × String)) (c : Client)
    (h : c ∈ computeVisible clients s filters) : c ∈ clients := by
  rw [computeVisible_eq_filter] at h
  exact List.mem_of_mem_filter h

theorem strIncludes_empty_hay (needle : String) (h : needle ≠ "") :
    strIncludes "" needle = false := by
  cases needle with
  | mk data =>
    cases data with
    | nil => exact absurd rfl h
    | cons a as => rfl

theorem jsLower_ne_empty (s : String) (h : s ≠ "") : jsLower s ≠ "" := by
  cases s with
  | mk data =>
    cases data with
    | nil => exact absurd rfl h
    | cons a as =>
      intro hc
      exact absurd (congrArg String.data hc) (by simp [jsLower])

theorem filterMatch_falsy (c : Client) (nm v : String) (hv : v ≠ "")
    (fv : FieldValue) (hl : lookupField c.fields nm = some fv)
    (ht : truthy fv = false) : filterMatch nm v c = false := by
  unfold filterMatch
  rw [hl]
  show strIncludes (jsLower (if truthy fv then renderValue fv else "")) _ = false
  rw [ht]
  show strIncludes "" (jsLower v) = false
  exact strIncludes_empty_hay _ (jsLower_ne_empty v hv)

theorem searchMatches_of_field (c : Client) (nm : String) (fv : FieldValue)
    (hl : lookupField c.fields nm = some fv) (term : String)
    (hmatch : strIncludes (jsLower (renderValue fv)) (jsLower term) = true) :
    searchMatches term c = true := by
  unfold lookupField at hl
  obtain ⟨kv, hfind, hsnd⟩ :
      ∃ kv, c.fields.find? (fun kv => kv.1 == nm) = some kv ∧ kv.2 = fv := by
    cases hf : c.fields.find? (fun kv => kv.1 == nm) with
    | none => rw [hf] at hl; simp at hl
    | some kv =>
      rw [hf] at hl
      simp at hl
      exact ⟨kv, rfl, hl⟩
  have hmem : kv ∈ c.fields := List.mem_of_find?_eq_some hfind
  unfold searchMatches
  rw [List.any_eq_true]
  exact ⟨kv, hmem, by rw [hsnd]; exact hmatch⟩

/-- C1 counterexample: a record whose `Amount` field holds the number 0
satisfies the claim's retention predicate for filter `{Amount: "0"}`
(its text rendering "0" contains "0"), yet `computeVisible` drops it,
because the code renders present falsy values as empty text. -/
theorem c1_counterexample :
    retainsClaim "" [("Amount", "0")] zeroClient = true ∧
    computeVisible [zeroClient] "" [("Amount", "0")] = [] := by
  constructor
  · decide
  · decide

/-- C1 (amended): `computeVisible` retains exactly the records that are in
the input list, match the search term when it is non-empty (some field
value's text rendering contains it case-insensitively), and, for each
non-empty filter entry, whose named field — rendered as text with a
missing or falsy value (empty text, the number 0, the boolean false)
treated as empty text — contains the filter's value case-insensitively;
search and all filters compose as logical AND. -/
theorem c1_visible_iff (clients : List Client) (s : String)
    (filters : List (String × String)) (c : Client) :
    c ∈ computeVisible clients s filters ↔
      c ∈ clients ∧ (s ≠ "" → searchMatches s c = true) ∧
        ∀ kv ∈ filters, kv.2 ≠ "" → filterMatch kv.1 kv.2 c = true := by
  rw [computeVisible_eq_filter, List.mem_filter]
  simp only [retains, Bool.and_eq_true, Bool.or_eq_true, beq_iff_eq,
    List.all_eq_true, or_iff_not_imp_left, ne_eq]

/-- C1 witness: the amended characterisation evaluated at a concrete
record, search term and filter set. -/
theorem c1_visible_iff_witness :
    zeroClient ∈ computeVisible [zeroClient] "" [("Amount", "0")] ↔
      zeroClient ∈ [zeroClient] ∧
        ("" ≠ "" → searchMatches "" zeroClient = true) ∧
        ∀ kv ∈ [("Amount", "0")], kv.2 ≠ "" →
          filterMatch kv.1 kv.2 zeroClient = true :=
  c1_visible_iff [zeroClient] "" [("Amount", "0")] zeroClient

/-- C2: with an empty search term and an empty filter set, the visible
set equals the full record set. -/
theorem c2_identity (clients : List Client) :
    computeVisible clients "" [] = clients := by
  simp [computeVisible]

/-- C4: applying the two filter entries `{A: x, B: y}` in either order
yields the same visible set. -/
theorem c4_filter_comm (clients : List Client) (s A x B y : String) :
    computeVisible clients s [(A, x), (B, y)] =
      computeVisible clients s [(B, y), (A, x)] := by
  rw [computeVisible_eq_filter, computeVisible_eq_filter]
  apply List.filter_congr
  intro c _
  simp only [retains, List.all_cons, List.all_nil]
  cases h1 : (x == "" || filterMatch A x c) <;>
    cases h2 : (y == "" || filterMatch B y c) <;> simp [h1, h2]

/-- C5: the visible set is the subsequence of the input consisting of
exactly the retained records in their original relative order; in the
ten-record scenario with three records mentioning "Acme", search "acme"
returns exactly those three in fetch order. -/
theorem c5_order_preserved :
    (∀ (clients : List Client) (s : String)
        (filters : List (String × String)),
      computeVisible clients s filters =
        clients.filter (fun c => retains s filters c) ∧
      List.Sublist (computeVisible clients s filters) clients) ∧
    computeVisible acmeClients "acme" [] = [acme1, acme4, acme7] := by
  constructor
  · intro clients s filters
    refine ⟨computeVisible_eq_filter clients s filters, ?_⟩
    rw [computeVisible_eq_filter]
    exact List.filter_sublist _
  · decide

/-- C10: a present field holding the number 0 or the boolean false is
rendered as empty text on the per-field filter path (so every non-empty
filter on that field rejects the record) but as "0" or "false" on the
global search path (so search "0" or "false" matches it); the two paths
disagree on such records. -/
theorem c10_falsy_divergence (c : Client) (nm v : String) (hv : v ≠ "")
    (h : lookupField c.fields nm = some (.num 0) ∨
         lookupField c.fields nm = some (.bool false)) :
    filterMatch nm v c = false ∧
    c ∉ computeVisible [c] "" [(nm, v)] ∧
    (lookupField c.fields nm = some (.num 0) →
      searchMatches "0" c = true ∧ c ∈ computeVisible [c] "0" []) ∧
    (lookupField c.fields nm = some (.bool false) →
      searchMatches "false" c = true ∧
        c ∈ computeVisible [c] "false" []) := by
  have hfm : filterMatch nm v c = false := by
    rcases h with h0 | h0
    · exact filterMatch_falsy c nm v hv _ h0 rfl
    · exact filterMatch_falsy c nm v hv _ h0 rfl
  refine ⟨hfm, ?_, ?_, ?_⟩
  · rw [computeVisible_eq_filter]
    simp [retains, hfm, hv]
  · intro h0
    have hs := searchMatches_of_field c nm _ h0 "0" (by decide)
    refine ⟨hs, ?_⟩
    rw [computeVisible_eq_filter]
    simp [retains, hs]
  · intro h0
    have hs := searchMatches_of_field c nm _ h0 "false" (by decide)
    refine ⟨hs, ?_⟩
    rw [computeVisible_eq_filter]
    simp [retains, hs]

/-- C10 witness: the divergence evaluated on the concrete record whose
`Amount` field is the number 0, with filter value "0". -/
theorem c10_falsy_divergence_witness :
    filterMatch "Amount" "0" zeroClient = false ∧
    zeroClient ∉ computeVisible [zeroClient] "" [("Amount", "0")] ∧
    (lookupField zeroClient.fields "Amount" = some (.num 0) →
      searchMatches "0" zeroClient = true ∧
        zeroClient ∈ computeVisible [zeroClient] "0" []) ∧
    (lookupField zeroClient.fields "Amount" = some (.bool false) →
      searchMatches "false" zeroClient = true ∧
        zeroClient ∈ computeVisible [zeroClient] "false" []) :=
  c10_falsy_divergence zeroClient "Amount" "0" (by decide) (Or.inl (by decide))

theorem jsOr_if (v : Option FieldValue) (w k : FieldValue) :
    jsOr v (if truthy w then w else k) =
      if truthy (jsOr v w) then jsOr v w else k := by
  rcases v with _ | x
  · simp [jsOr]
  · simp only [jsOr]
    cases hx : truthy x <;> simp [hx]

theorem recipientName_eq (fields : List (String × FieldValue)) :
    recipientName fields =
      if truthy (promptName fields) then promptName fields
      else FieldValue.str "Client" := by
  unfold recipientName promptName
  rw [show FieldValue.str "Client" =
        (if truthy (FieldValue.str "") then FieldValue.str ""
         else FieldValue.str "Client") from rfl,
    jsOr_if, jsOr_if, jsOr_if]
  simp [truthy]

theorem collectNames_cons_inv (lp : String) (client : Client)
    (rest : List Client) (acc ns : List String)
    (h : collectNames lp (client :: rest) acc = some ns) :
    (∃ s, recipientName client.fields = FieldValue.str s) ∧
    ∃ acc2, collectNames lp rest acc2 = some ns := by
  simp only [collectNames] at h
  rw [recipientName_eq]
  cases hn : promptName client.fields with
  | str s =>
    rw [hn] at h
    by_cases hs : s = ""
    · subst hs
      simp only [truthy, bne_self_eq_false, Bool.false_eq_true,
        if_false] at h
      exact ⟨⟨"Client", by simp [hn, truthy]⟩, acc, h⟩
    · have ht : truthy (FieldValue.str s) = true := by simp [truthy, hs]
      rw [ht] at h
      simp only [if_true] at h
      refine ⟨⟨s, by simp [hn, ht]⟩, ?_⟩
      exact ⟨_, h⟩
  | num n =>
    rw [hn] at h
    cases hz : truthy (FieldValue.num n)
    · rw [hz] at h
      simp only [Bool.false_eq_true, if_false] at h
      exact ⟨⟨"Client", by simp [hn, hz]⟩, acc, h⟩
    · rw [hz] at h
      simp at h
  | bool b =>
    rw [hn] at h
    cases b
    · simp only [truthy, Bool.false_eq_true, if_false] at h
      exact ⟨⟨"Client", by simp [hn, truthy]⟩, acc, h⟩
    · simp [truthy] at h
  | null =>
    rw [hn] at h
    simp only [truthy, Bool.false_eq_true, if_false] at h
    exact ⟨⟨"Client", by simp [hn, truthy]⟩, acc, h⟩
  | list xs =>
    rw [hn] at h
    simp [truthy] at h

theorem collectNames_str (lp : String) (cs : List Client) :
    ∀ (acc ns : List String), collectNames lp cs acc = some ns →
      ∀ c ∈ cs, ∃ s, recipientName c.fields = FieldValue.str s := by
  induction cs with
  | nil => intro acc ns _ c hc; exact absurd hc (List.not_mem_nil c)
  | cons client rest ih =>
    intro acc ns h c hc
    obtain ⟨hhead, acc2, htail⟩ := collectNames_cons_inv lp client rest acc ns h
    rcases List.mem_cons.mp hc with rfl | hc
    · exact hhead
    · exact ih acc2 ns htail c hc

theorem collectNames_eq (lp : String) (cs : List Client) :
    ∀ (acc ns : List String),
      collectNames lp cs acc = some ns →
      ns = acc ++ cs.filterMap (mentionOf lp) := by
  induction cs with
  | nil =>
    intro acc ns h
    simp only [collectNames, Option.some.injEq] at h
    simp [← h]
  | cons client rest ih =>
    intro acc ns h
    simp only [collectNames] at h
    cases hn : promptName client.fields with
    | str s =>
      rw [hn] at h
      by_cases hs : s = ""
      · subst hs
        simp only [truthy, bne_self_eq_false, Bool.false_eq_true,
          if_false] at h
        simpa [List.filterMap_cons, mentionOf, hn] using ih acc ns h
      · have ht : truthy (FieldValue.str s) = true := by simp [truthy, hs]
        rw [ht] at h
        simp only [if_true] at h
        by_cases hincl : strIncludes lp (jsLower s) = true
        · rw [if_pos hincl] at h
          have := ih (acc ++ [s]) ns h
          simp [List.filterMap_cons, mentionOf, hn, hs, hincl, this]
        · rw [if_neg hincl] at h
          have := ih acc ns h
          simp only [Bool.not_eq_true] at hincl
          simp [List.filterMap_cons, mentionOf, hn, hs, hincl, this]
    | num n =>
      rw [hn] at h
      cases hz : truthy (FieldValue.num n)
      · rw [hz] at h
        simp only [Bool.false_eq_true, if_false] at h
        simpa [List.filterMap_cons, mentionOf, hn] using ih acc ns h
      · rw [hz] at h
        simp at h
    | bool b =>
      rw [hn] at h
      cases b
      · simp only [truthy, Bool.false_eq_true, if_false] at h
        simpa [List.filterMap_cons, mentionOf, hn] using ih acc ns h
      · simp [truthy] at h
    | null =>
      rw [hn] at h
      simp only [truthy, Bool.false_eq_true, if_false] at h
      simpa [List.filterMap_cons, mentionOf, hn] using ih acc ns h
    | list xs =>
      rw [hn] at h
      simp [truthy] at h

theorem extractEmails_eq (cs : List Client) :
    extractEmails cs =
      (cs.filter (fun c => hasEmailField c)).map recipientOf := by
  induction cs with
  | nil => rfl
  | cons client rest ih =>
    simp only [extractEmails] at ih ⊢
    rw [List.filterMap_cons, List.filter_cons]
    cases hf : client.fields.find? (fun kv => emailKey kv.1) with
    | none => simp [hasEmailField, hf, ih]
    | some kv =>
      cases ht : truthy kv.2
      · simp [hasEmailField, hf, ht, ih]
      · simp [hasEmailField, hf, ht, ih, recipientOf]

theorem extractEmails_names_str (cs : List Client)
    (hstr : ∀ c ∈ cs, ∃ s, recipientName c.fields = FieldValue.str s) :
    ∀ r ∈ extractEmails cs, ∃ s, r.name = FieldValue.str s := by
  intro r hr
  rw [extractEmails_eq] at hr
  obtain ⟨c, hc, rfl⟩ := List.mem_map.mp hr
  simpa [recipientOf] using hstr c (List.mem_of_mem_filter hc)

theorem narrowRecipients_eq (names : List String) (rs : List Recipient)
    (hstr : ∀ r ∈ rs, ∃ s, r.name = FieldValue.str s) :
    narrowRecipients names rs =
      some (rs.filter (fun r => recipKeep names r)) := by
  induction rs with
  | nil => rfl
  | cons r rest ih =>
    obtain ⟨s, hs⟩ := hstr r (List.mem_cons_self r rest)
    have hrest := ih (fun x hx => hstr x (List.mem_cons_of_mem r hx))
    simp only [narrowRecipients, hs, hrest, List.filter_cons, recipKeep]

/-- C6: `extractEmails` emits exactly one Recipient for each visible
record whose first email-named field (name containing "email"
case-insensitively or equal to "e-mail") holds a truthy value, using that
field's value as the address and the first truthy of
{Name, name, "First Name"} (default "Client") as display name; records
without such a field are skipped and yield nothing (no error is
possible — the function is total).  Concretely, `{Name: "Jane",
Email: "jane@x.com"}` yields `{name: Jane, email: jane@x.com}` and a
record with no email-like field yields no recipient. -/
theorem c6_extract_recipients :
    (∀ cs : List Client, extractEmails cs =
      (cs.filter (fun c => hasEmailField c)).map recipientOf) ∧
    extractEmails [janeClient] =
      [{ email := FieldValue.str "jane@x.com"
         name := FieldValue.str "Jane"
         clientData := janeClient.fields }] ∧
    extractEmails [noEmailClient] = [] := by
  refine ⟨extractEmails_eq, ?_, ?_⟩
  · decide
  · decide

/-- C7: when the name-collection over the visible set succeeds, it
returns exactly the resolved display names of visible records that occur
case-insensitively in the prompt; when that list is empty no narrowing
occurs and the full visible recipient list is used, and when it is
non-empty the campaign recipients are exactly those whose display name
contains some mentioned name case-insensitively. -/
theorem c7_narrow_names (prompt : String) (cs : List Client)
    (names : List String)
    (h : extractClientNamesFromPrompt prompt cs = some names) :
    names = cs.filterMap (mentionOf (jsLower prompt)) ∧
    (names = [] →
      campaignRecipients prompt cs = some (extractEmails cs)) ∧
    (names ≠ [] →
      campaignRecipients prompt cs =
        some ((extractEmails cs).filter (fun r => recipKeep names r))) := by
  have hcoll : collectNames (jsLower prompt) cs [] = some names := h
  refine ⟨by simpa using collectNames_eq (jsLower prompt) cs [] names hcoll,
    ?_, ?_⟩
  · intro hnil
    simp [campaignRecipients, extractClientNamesFromPrompt, hcoll, hnil]
  · intro hne
    have hstr : ∀ r ∈ extractEmails cs, ∃ s, r.name = FieldValue.str s :=
      extractEmails_names_str cs (collectNames_str (jsLower prompt) cs [] names hcoll)
    have hnarrow := narrowRecipients_eq names (extractEmails cs) hstr
    simp [campaignRecipients, extractClientNamesFromPrompt, hcoll,
      List.isEmpty_iff, hne, hnarrow]

/-- C7 witness: the prompt "Send to Jane only" over visible records Jane
and Bob mentions exactly ["Jane"], and the campaign recipients narrow to
Jane alone. -/
theorem c7_narrow_names_witness :
    ["Jane"] = [janeClient, bobClient].filterMap
      (mentionOf (jsLower "Send to Jane only")) ∧
    (["Jane"] = [] →
      campaignRecipients "Send to Jane only" [janeClient, bobClient] =
        some (extractEmails [janeClient, bobClient])) ∧
    ((["Jane"] : List String) ≠ [] →
      campaignRecipients "Send to Jane only" [janeClient, bobClient] =
        some ((extractEmails [janeClient, bobClient]).filter
          (fun r => recipKeep ["Jane"] r))) :=
  c7_narrow_names "Send to Jane only" [janeClient, bobClient] ["Jane"]
    (by decide)

/-- C8: when the recipient computation of `generateEmailCampaign`
evaluates to a list, the NoRecipients failure is raised if and only if
that list is empty; in particular a visible set with zero extractable
email addresses always raises it. -/
theorem c8_no_recipients (prompt : String) (cs : List Client)
    (rs : List Recipient)
    (h : campaignRecipients prompt cs = some rs) :
    (buildCampaignCheck prompt cs = some CampaignOutcome.noRecipients ↔
      rs = []) ∧
    (extractEmails cs = [] →
      rs = [] ∧
      buildCampaignCheck prompt cs = some CampaignOutcome.noRecipients) := by
  have hiff : buildCampaignCheck prompt cs =
      some CampaignOutcome.noRecipients ↔ rs = [] := by
    simp only [buildCampaignCheck, h]
    cases rs <;> simp
  refine ⟨hiff, ?_⟩
  intro hzero
  have hrs : rs = [] := by
    unfold campaignRecipients at h
    cases hx : extractClientNamesFromPrompt prompt cs with
    | none => rw [hx] at h; simp at h
    | some specifiedNames =>
      rw [hx] at h
      simp only [hzero] at h
      cases hs : specifiedNames.isEmpty
      · rw [hs] at h
        simp only [Bool.false_eq_true, if_false] at h
        cases hn : specifiedNames with
        | nil => simp [hn] at hs
        | cons a l =>
          rw [hn] at h
          simp only [narrowRecipients, Option.some.injEq] at h
          exact h.symm
      · rw [hs] at h
        simp only [if_true, Option.some.injEq] at h
        exact h.symm
  exact ⟨hrs, hiff.mpr hrs⟩

/-- C8 witness: over a visible set with no email-like field the recipient
computation yields the empty list and the NoRecipients failure fires. -/
theorem c8_no_recipients_witness :
    (buildCampaignCheck "please write an email" [noEmailClient] =
        some CampaignOutcome.noRecipients ↔ ([] : List Recipient) = []) ∧
    (extractEmails [noEmailClient] = [] →
      ([] : List Recipient) = [] ∧
      buildCampaignCheck "please write an email" [noEmailClient] =
        some CampaignOutcome.noRecipients) :=
  c8_no_recipients "please write an email" [noEmailClient] [] (by decide)

/-- C3: every settled operation of the system preserves the invariant
that the visible set is contained in the stored record set, and
`computeVisible` always yields a subset of its input record list. -/
theorem c3_subset_invariant (st : AppState) (op : AppOp)
    (hInv : ∀ c ∈ st.filteredClients, c ∈ st.clients) :
    (∀ c ∈ (stepOp st op).filteredClients, c ∈ (stepOp st op).clients) ∧
    (∀ (clients : List Client) (s : String)
        (filters : List (String × String)) (c : Client),
      c ∈ computeVisible clients s filters → c ∈ clients) := by
  refine ⟨?_, computeVisible_subset⟩
  cases op with
  | setSearch s =>
    intro c hc
    exact computeVisible_subset _ _ _ c hc
  | setFilter field value =>
    intro c hc
    exact computeVisible_subset _ _ _ c hc
  | clearAll =>
    intro c hc
    exact computeVisible_subset _ _ _ c hc
  | fetch res =>
    intro c hc
    simp only [stepOp, fetchClientsStep] at hc ⊢
    by_cases hcfg : configIncomplete st.config = true
    · rw [if_pos hcfg] at hc ⊢
      exact hInv c hc
    · rw [if_neg hcfg] at hc ⊢
      cases res with
      | success records => exact computeVisible_subset _ _ _ c hc
      | httpError status statusText => exact hInv c hc
      | transportError message => exact hInv c hc

/-- C3 witness: the invariant-preservation statement evaluated on a
concrete settled state and a search-term update. -/
theorem c3_subset_invariant_witness :
    (∀ c ∈ (stepOp demoState (AppOp.setSearch "ann")).filteredClients,
      c ∈ (stepOp demoState (AppOp.setSearch "ann")).clients) ∧
    (∀ (clients : List Client) (s : String)
        (filters : List (String × String)) (c : Client),
      c ∈ computeVisible clients s filters → c ∈ clients) :=
  c3_subset_invariant demoState (AppOp.setSearch "ann") (by decide)

/-- C9: every failing fetch (incomplete configuration, non-2xx response,
or transport error) surfaces exactly the expected error message and
leaves the stored record set, the visible set, the query inputs, the
available filters, the configuration and the config-screen flag
unchanged. -/
theorem c9_fetch_error_atomic (st : AppState) (res : FetchResult)
    (h : configIncomplete st.config = true ∨ isFetchFailure res = true) :
    (fetchClientsStep st res).clients = st.clients ∧
    (fetchClientsStep st res).filteredClients = st.filteredClients ∧
    (fetchClientsStep st res).searchTerm = st.searchTerm ∧
    (fetchClientsStep st res).filters = st.filters ∧
    (fetchClientsStep st res).availableFilters = st.availableFilters ∧
    (fetchClientsStep st res).config = st.config ∧
    (fetchClientsStep st res).showConfig = st.showConfig ∧
    (fetchClientsStep st res).error =
      (if configIncomplete st.config then
        "Please configure all Airtable settings"
       else
        match res with
        | .httpError status statusText =>
          "Error: " ++ toString status ++ " - " ++ statusText
        | .transportError message => message
        | .success _ => "") := by
  by_cases hcfg : configIncomplete st.config = true
  · simp [fetchClientsStep, hcfg]
  · rcases h with h | h
    · exact absurd h hcfg
    · cases res with
      | success records => simp [isFetchFailure] at h
      | httpError status statusText => simp [fetchClientsStep, hcfg]
      | transportError message => simp [fetchClientsStep, hcfg]

/-- C9 witness: a 404 response against a fully configured state keeps
every prior field and stores the HTTP error message. -/
theorem c9_fetch_error_atomic_witness :
    (fetchClientsStep demoState (FetchResult.httpError 404 "Not Found")).clients
        = demoState.clients ∧
    (fetchClientsStep demoState
        (FetchResult.httpError 404 "Not Found")).filteredClients
        = demoState.filteredClients ∧
    (fetchClientsStep demoState (FetchResult.httpError 404 "Not Found")).searchTerm
        = demoState.searchTerm ∧
    (fetchClientsStep demoState (FetchResult.httpError 404 "Not Found")).filters
        = demoState.filters ∧
    (fetchClientsStep demoState
        (FetchResult.httpError 404 "Not Found")).availableFilters
        = demoState.availableFilters ∧
    (fetchClientsStep demoState (FetchResult.httpError 404 "Not Found")).config
        = demoState.config ∧
    (fetchClientsStep demoState (FetchResult.httpError 404 "Not Found")).showConfig
        = demoState.showConfig ∧
    (fetchClientsStep demoState (FetchResult.httpError 404 "Not Found")).error =
      (if configIncomplete demoState.config then
        "Please configure all Airtable settings"
       else
        match FetchResult.httpError 404 "Not Found" with
        | .httpError status statusText =>
          "Error: " ++ toString status ++ " - " ++ statusText
        | .transportError message => message
        | .success _ => "") :=
  c9_fetch_error_atomic demoState (FetchResult.httpError 404 "Not Found")
    (Or.inr rfl)
